import Mathlib

/-!
Shallow embedding of the NDOP (National Data Opt-out) publication pipeline
(NHSDigital/NDOP-publication), covering the temporal record resolver
(`ndop/preprocessing/ndop_aggregate.py`), the demographic aggregator and rate
normaliser (`ndop/csv/age_gen_csv.py`), the reporting-window expander
(`ndop/config/config.py`) and NHS-number cleaning
(`ndop/preprocessing/ndop_clean.py`).

Dataframes become lists of records; nullable columns become `Option`;
calendar dates become a `Date` structure ordered by a numeric key, which
agrees with both chronological order and the lexicographic order on ISO
`YYYY-MM-DD` strings that pandas uses when those columns are compared.
-/

namespace NDOP

/-- A calendar date (year, month, day).  The pipeline compares dates either as
`datetime.date` values or as ISO-format strings; both orders coincide with the
order of `Date.key` below. -/
structure Date where
  y : Nat
  m : Nat
  d : Nat
deriving DecidableEq, Repr

/-- Numeric key realising chronological order for calendar dates
(months `1..12`, days `1..31`). -/
def Date.key (a : Date) : Nat := a.y * 10000 + a.m * 100 + a.d

instance : LE Date := ⟨fun a b => a.key ≤ b.key⟩

instance : LT Date := ⟨fun a b => a.key < b.key⟩

instance (a b : Date) : Decidable (a ≤ b) := Nat.decLe a.key b.key

instance (a b : Date) : Decidable (a < b) := Nat.decLt a.key b.key

theorem Date.le_def (a b : Date) : a ≤ b ↔ a.key ≤ b.key := Iff.rfl

theorem Date.lt_def (a b : Date) : a < b ↔ a.key < b.key := Iff.rfl

/-- One row of the NDOP records dataframe (`PRIM_POS.ic.NDOP_DEMOG` after
extraction).  Nullable columns are `Option`; `ACH_DATE` is only populated by
`slice_ndop_by_month`. -/
structure NdopRow where
  NHS_Number : Option String
  AGE_BAND : Option String
  GENDER : Option String
  DATE_OF_DEATH : Option Date
  GP_PRACTICE : Option String
  LSOA_CODE : Option String
  Record_Start_Date : Option Date
  Record_End_Date : Option Date
  ACH_DATE : Option Date
deriving DecidableEq, Repr

/-- `filter_living_patients`: keep rows whose `DATE_OF_DEATH` is null or
strictly after `date` (`isna() | (DATE_OF_DEATH > date)`; a NaN compared with
`>` is `False` in pandas, covered by the `isna` disjunct). -/
def filter_living_patients (df : List NdopRow) (date : Date) : List NdopRow :=
  df.filter fun r =>
    match r.DATE_OF_DEATH with
    | none => true
    | some dod => decide (date < dod)

/-- `filter_deceased_patients`: `df.query("DATE_OF_DEATH <= date")`.  Rows with
NaN `DATE_OF_DEATH` fail the comparison and are dropped. -/
def filter_deceased_patients (df : List NdopRow) (date : Date) : List NdopRow :=
  df.filter fun r =>
    match r.DATE_OF_DEATH with
    | none => false
    | some dod => decide (dod ≤ date)

/-- The boolean mask of `slice_ndop_by_month`:
`(Record_Start_Date <= date) & ((Record_End_Date >= date) | Record_End_Date.isna())`.
NaN comparisons are `False` in pandas, so a null start date fails the mask. -/
def active_on (r : NdopRow) (date : Date) : Bool :=
  (match r.Record_Start_Date with
   | none => false
   | some s => decide (s ≤ date)) &&
  (match r.Record_End_Date with
   | none => true
   | some e => decide (date ≤ e))

/-- Assignment `df["ACH_DATE"] = date` performed on the sliced copy. -/
def set_ach_date (r : NdopRow) (date : Date) : NdopRow :=
  { r with ACH_DATE := some date }

/-- `slice_ndop_by_month`: keep the active rows and tag them with the snapshot
date in `ACH_DATE`. -/
def slice_ndop_by_month (df : List NdopRow) (date : Date) : List NdopRow :=
  (df.filter (fun r => active_on r date)).map (fun r => set_ach_date r date)

-- C4 / C5 theorems --------------------------------------------------------

/-- **C4.** Death-partition boundary: a row passes `filter_deceased_patients`
iff its `DATE_OF_DEATH` is non-null and `≤` the snapshot date, and passes
`filter_living_patients` iff its `DATE_OF_DEATH` is null or strictly greater;
concretely, a patient with date of death 2022-06-01 is living at snapshot
2022-05-01 and deceased at snapshot 2022-07-01. -/
theorem death_partition_boundary :
    (∀ (df : List NdopRow) (date : Date) (r : NdopRow),
      r ∈ filter_deceased_patients df date ↔
        r ∈ df ∧ ∃ dod, r.DATE_OF_DEATH = some dod ∧ dod ≤ date) ∧
    (∀ (df : List NdopRow) (date : Date) (r : NdopRow),
      r ∈ filter_living_patients df date ↔
        r ∈ df ∧ (r.DATE_OF_DEATH = none ∨
          ∃ dod, r.DATE_OF_DEATH = some dod ∧ date < dod)) ∧
    (∀ (df : List NdopRow) (r : NdopRow), r ∈ df →
      r.DATE_OF_DEATH = some ⟨2022, 6, 1⟩ →
        (r ∈ filter_living_patients df ⟨2022, 5, 1⟩ ∧
         r ∉ filter_deceased_patients df ⟨2022, 5, 1⟩ ∧
         r ∈ filter_deceased_patients df ⟨2022, 7, 1⟩ ∧
         r ∉ filter_living_patients df ⟨2022, 7, 1⟩)) := by
  refine ⟨?_, ?_, ?_⟩
  · intro df date r
    simp only [filter_deceased_patients, List.mem_filter]
    constructor
    · rintro ⟨hmem, hf⟩
      refine ⟨hmem, ?_⟩
      cases h : r.DATE_OF_DEATH with
      | none => rw [h] at hf; simp at hf
      | some dod =>
        rw [h] at hf
        exact ⟨dod, rfl, by simpa using hf⟩
    · rintro ⟨hmem, dod, hdod, hle⟩
      exact ⟨hmem, by rw [hdod]; simpa using hle⟩
  · intro df date r
    simp only [filter_living_patients, List.mem_filter]
    constructor
    · rintro ⟨hmem, hf⟩
      refine ⟨hmem, ?_⟩
      cases h : r.DATE_OF_DEATH with
      | none => exact Or.inl rfl
      | some dod =>
        rw [h] at hf
        exact Or.inr ⟨dod, rfl, by simpa using hf⟩
    · rintro ⟨hmem, hcase⟩
      refine ⟨hmem, ?_⟩
      rcases hcase with hnone | ⟨dod, hdod, hlt⟩
      · rw [hnone]
      · rw [hdod]; simpa using hlt
  · intro df r hmem hdod
    refine ⟨?_, ?_, ?_, ?_⟩
    · simp only [filter_living_patients, List.mem_filter]
      exact ⟨hmem, by rw [hdod]; decide⟩
    · simp only [filter_deceased_patients, List.mem_filter]
      rintro ⟨-, hf⟩
      rw [hdod] at hf
      exact absurd hf (by decide)
    · simp only [filter_deceased_patients, List.mem_filter]
      exact ⟨hmem, by rw [hdod]; decide⟩
    · simp only [filter_living_patients, List.mem_filter]
      rintro ⟨-, hf⟩
      rw [hdod] at hf
      exact absurd hf (by decide)

/-- A concrete record used by several witnesses. -/
def sampleRow : NdopRow :=
  { NHS_Number := some "1234567890"
    AGE_BAND := some "40-49"
    GENDER := some "Male"
    DATE_OF_DEATH := some ⟨2022, 6, 1⟩
    GP_PRACTICE := some "P1"
    LSOA_CODE := some "L1"
    Record_Start_Date := some ⟨2020, 1, 1⟩
    Record_End_Date := none
    ACH_DATE := none }

/-- Witness for C4: the concrete scenario evaluated on `sampleRow`. -/
theorem death_partition_boundary_witness :
    sampleRow ∈ filter_living_patients [sampleRow] ⟨2022, 5, 1⟩ ∧
    sampleRow ∈ filter_deceased_patients [sampleRow] ⟨2022, 7, 1⟩ := by
  have h := death_partition_boundary.2.2 [sampleRow] sampleRow
    (by simp) rfl
  exact ⟨h.1, h.2.2.1⟩

/-- **C5.** `slice_ndop_by_month` keeps exactly the rows whose
`Record_Start_Date` is `≤` the snapshot date and whose `Record_End_Date` is
`≥` the snapshot date or null, leaves all other fields of kept rows unchanged,
and tags each kept row with the snapshot date in `ACH_DATE`. -/
theorem slice_keeps_exactly_active_rows (df : List NdopRow) (date : Date) :
    (∀ r', r' ∈ slice_ndop_by_month df date ↔
      ∃ r ∈ df, active_on r date = true ∧ r' = set_ach_date r date) ∧
    (∀ r, active_on r date = true ↔
      ((∃ s, r.Record_Start_Date = some s ∧ s ≤ date) ∧
       (r.Record_End_Date = none ∨ ∃ e, r.Record_End_Date = some e ∧ date ≤ e))) ∧
    (∀ r, (set_ach_date r date).NHS_Number = r.NHS_Number ∧
      (set_ach_date r date).AGE_BAND = r.AGE_BAND ∧
      (set_ach_date r date).GENDER = r.GENDER ∧
      (set_ach_date r date).DATE_OF_DEATH = r.DATE_OF_DEATH ∧
      (set_ach_date r date).GP_PRACTICE = r.GP_PRACTICE ∧
      (set_ach_date r date).LSOA_CODE = r.LSOA_CODE ∧
      (set_ach_date r date).Record_Start_Date = r.Record_Start_Date ∧
      (set_ach_date r date).Record_End_Date = r.Record_End_Date ∧
      (set_ach_date r date).ACH_DATE = some date) := by
  refine ⟨?_, ?_, ?_⟩
  · intro r'
    simp only [slice_ndop_by_month, List.mem_map, List.mem_filter]
    constructor
    · rintro ⟨r, ⟨hmem, hact⟩, rfl⟩
      exact ⟨r, hmem, hact, rfl⟩
    · rintro ⟨r, hmem, hact, rfl⟩
      exact ⟨r, ⟨hmem, hact⟩, rfl⟩
  · intro r
    unfold active_on
    constructor
    · intro h
      rw [Bool.and_eq_true] at h
      obtain ⟨h1, h2⟩ := h
      constructor
      · cases hs : r.Record_Start_Date with
        | none => rw [hs] at h1; simp at h1
        | some s => rw [hs] at h1; exact ⟨s, rfl, by simpa using h1⟩
      · cases he : r.Record_End_Date with
        | none => exact Or.inl rfl
        | some e => rw [he] at h2; exact Or.inr ⟨e, rfl, by simpa using h2⟩
    · rintro ⟨⟨s, hs, hsle⟩, hend⟩
      rw [Bool.and_eq_true]
      refine ⟨by rw [hs]; simpa using hsle, ?_⟩
      rcases hend with hnone | ⟨e, he, hele⟩
      · rw [hnone]
      · rw [he]; simpa using hele
  · intro r
    exact ⟨rfl, rfl, rfl, rfl, rfl, rfl, rfl, rfl, rfl⟩

-- retrieve_most_recent_record -------------------------------------------

/-- Pairs each row with its positional index (starting at `n`), mirroring the
row order pandas ranks over. -/
def enumFrom (n : Nat) : List NdopRow → List (Nat × NdopRow)
  | [] => []
  | r :: rs => (n, r) :: enumFrom (n + 1) rs

/-- `rank(method="first", ascending=False)` on `Record_Start_Date` within an
`NHS_Number` group: row `q` outranks row `p` iff they are in the same group and
`q` has a strictly later start date, or the same start date and an earlier
position.  Rows whose start date is NaN receive no rank (`na_option="keep"`)
and outrank nothing. -/
def rowBeats (q p : Nat × NdopRow) : Bool :=
  (q.2.NHS_Number == p.2.NHS_Number) &&
  match q.2.Record_Start_Date, p.2.Record_Start_Date with
  | some sq, some sp =>
      decide (sp.key < sq.key) || (decide (sq.key = sp.key) && decide (q.1 < p.1))
  | _, _ => false

/-- A row keeps rank 1 iff it belongs to a group (non-null `NHS_Number`, since
`groupby` drops NaN keys), has a rank at all (non-null `Record_Start_Date`),
and no row of the frame outranks it. -/
def keepRank1 (l : List (Nat × NdopRow)) (p : Nat × NdopRow) : Bool :=
  p.2.NHS_Number.isSome && p.2.Record_Start_Date.isSome &&
    l.all (fun q => ! rowBeats q p)

/-- `retrieve_most_recent_record`: rank each `NHS_Number` group by
`Record_Start_Date` descending with ties to the first-occurring row, and keep
the rank-1 rows in their original order. -/
def retrieve_most_recent_record (df : List NdopRow) : List NdopRow :=
  ((enumFrom 0 df).filter (keepRank1 (enumFrom 0 df))).map Prod.snd

theorem mem_enumFrom {l : List NdopRow} {n i : Nat} {r : NdopRow} :
    (i, r) ∈ enumFrom n l ↔ ∃ k, ∃ h : k < l.length, i = n + k ∧ l[k] = r := by
  induction l generalizing n with
  | nil => simp [enumFrom]
  | cons x xs ih =>
    simp only [enumFrom, List.mem_cons, ih, Prod.mk.injEq]
    constructor
    · rintro (⟨rfl, rfl⟩ | ⟨k, h, rfl, hget⟩)
      · exact ⟨0, by simp, by simp⟩
      · exact ⟨k + 1, by simp [Nat.succ_lt_succ h], by omega, by simpa using hget⟩
    · rintro ⟨k, h, rfl, hget⟩
      cases k with
      | zero => exact Or.inl ⟨by omega, by simpa using hget.symm⟩
      | succ k =>
        refine Or.inr ⟨k, by simpa using h, by omega, by simpa using hget⟩

theorem enumFrom_fst_ge {l : List NdopRow} {n : Nat} {a : Nat × NdopRow}
    (h : a ∈ enumFrom n l) : n ≤ a.1 := by
  obtain ⟨i, r⟩ := a
  obtain ⟨k, hk, rfl, -⟩ := mem_enumFrom.mp h
  omega

theorem enumFrom_pairwise_fst (n : Nat) (l : List NdopRow) :
    (enumFrom n l).Pairwise (fun a b => a.1 ≠ b.1) := by
  induction l generalizing n with
  | nil => exact List.Pairwise.nil
  | cons x xs ih =>
    refine List.Pairwise.cons ?_ (ih (n + 1))
    intro b hb
    have := enumFrom_fst_ge hb
    omega

theorem enumFrom_fst_inj {l : List NdopRow} {n : Nat} {a b : Nat × NdopRow}
    (ha : a ∈ enumFrom n l) (hb : b ∈ enumFrom n l) (h : a.1 = b.1) : a = b := by
  obtain ⟨i, r⟩ := a
  obtain ⟨j, s⟩ := b
  obtain ⟨k, hk, rfl, rfl⟩ := mem_enumFrom.mp ha
  obtain ⟨k', hk', rfl, rfl⟩ := mem_enumFrom.mp hb
  simp only at h
  have : k = k' := by omega
  subst this
  simp

theorem keepRank1_spec {l : List (Nat × NdopRow)} {p : Nat × NdopRow} :
    keepRank1 l p = true ↔
      p.2.NHS_Number.isSome = true ∧ p.2.Record_Start_Date.isSome = true ∧
        ∀ q ∈ l, rowBeats q p = false := by
  simp [keepRank1, List.all_eq_true, Bool.not_eq_true', and_assoc]

/-- Rows kept at rank 1 of the same group and frame are the one row. -/
theorem keepRank1_same_group_eq {l : List NdopRow} {a b : Nat × NdopRow}
    (hal : a ∈ enumFrom 0 l) (hbl : b ∈ enumFrom 0 l)
    (ha : keepRank1 (enumFrom 0 l) a = true) (hb : keepRank1 (enumFrom 0 l) b = true)
    (hnhs : a.2.NHS_Number = b.2.NHS_Number) : a = b := by
  obtain ⟨-, hsa, hqa⟩ := keepRank1_spec.mp ha
  obtain ⟨-, hsb, hqb⟩ := keepRank1_spec.mp hb
  obtain ⟨sa, hsa⟩ := Option.isSome_iff_exists.mp hsa
  obtain ⟨sb, hsb⟩ := Option.isSome_iff_exists.mp hsb
  by_cases hidx : a.1 = b.1
  · exact enumFrom_fst_inj hal hbl hidx
  · exfalso
    have hba := hqa b hbl
    have hab := hqb a hal
    simp only [rowBeats, hnhs, hsa, hsb, beq_self_eq_true, Bool.true_and] at hba hab
    rcases Nat.lt_trichotomy sa.key sb.key with hlt | heq | hgt
    · simp [hlt] at hba
    · rcases Nat.lt_or_ge a.1 b.1 with h1 | h1
      · simp [heq, h1] at hab
      · have h2 : b.1 < a.1 := by omega
        simp [heq, h2] at hba
    · simp [hgt] at hab

theorem mem_retrieve_most_recent_record {l : List NdopRow} {r : NdopRow}
    (h : r ∈ retrieve_most_recent_record l) : r ∈ l := by
  simp only [retrieve_most_recent_record, List.mem_map, List.mem_filter] at h
  obtain ⟨a, ⟨hmem, -⟩, rfl⟩ := h
  obtain ⟨i, r⟩ := a
  obtain ⟨k, hk, -, rfl⟩ := mem_enumFrom.mp hmem
  exact List.getElem_mem hk

/-- The retained rows carry pairwise distinct `NHS_Number`s. -/
theorem retrieve_most_recent_record_nhs_nodup (l : List NdopRow) :
    ((retrieve_most_recent_record l).map (fun r => r.NHS_Number)).Nodup := by
  rw [retrieve_most_recent_record, List.map_map]
  have hfst : ((enumFrom 0 l).filter (keepRank1 (enumFrom 0 l))).Pairwise
      (fun a b => a.1 ≠ b.1) :=
    (enumFrom_pairwise_fst 0 l).sublist (List.filter_sublist _)
  have hnhs : ((enumFrom 0 l).filter (keepRank1 (enumFrom 0 l))).Pairwise
      (fun a b => a.2.NHS_Number ≠ b.2.NHS_Number) := by
    refine hfst.imp_of_mem ?_
    intro a b ha hb hab hcon
    obtain ⟨hael, hak⟩ := List.mem_filter.mp ha
    obtain ⟨hbel, hbk⟩ := List.mem_filter.mp hb
    exact hab (congrArg Prod.fst (keepRank1_same_group_eq hael hbel hak hbk hcon))
  exact List.pairwise_map.mpr hnhs

/-- **C2.** Resolution (active slice followed by `retrieve_most_recent_record`)
returns at most one row per patient identifier; each returned row occurs in the
sliced input, its `Record_Start_Date` is maximal among its patient's sliced
rows, and no earlier-occurring sliced row of the same patient attains that
maximum (first-occurring tied maximum wins). -/
theorem resolution_cardinality_most_recent (df : List NdopRow) (date : Date) :
    ((retrieve_most_recent_record (slice_ndop_by_month df date)).map
        (fun r => r.NHS_Number)).Nodup ∧
    ∀ r ∈ retrieve_most_recent_record (slice_ndop_by_month df date),
      ∃ i, ∃ h : i < (slice_ndop_by_month df date).length,
        (slice_ndop_by_month df date)[i] = r ∧
        ∃ rs, r.Record_Start_Date = some rs ∧
          (∀ j, ∀ h' : j < (slice_ndop_by_month df date).length,
            ((slice_ndop_by_month df date)[j]).NHS_Number = r.NHS_Number →
            ∀ ss, ((slice_ndop_by_month df date)[j]).Record_Start_Date = some ss →
              ss ≤ rs) ∧
          (∀ j, ∀ h' : j < (slice_ndop_by_month df date).length, j < i →
            ((slice_ndop_by_month df date)[j]).NHS_Number = r.NHS_Number →
            ∀ ss, ((slice_ndop_by_month df date)[j]).Record_Start_Date = some ss →
              ss < rs) := by
  refine ⟨retrieve_most_recent_record_nhs_nodup _, ?_⟩
  intro r hr
  simp only [retrieve_most_recent_record, List.mem_map, List.mem_filter] at hr
  obtain ⟨⟨i0, r'⟩, ⟨haE, hak⟩, rfl⟩ := hr
  obtain ⟨k, hk, hi0, hget⟩ := mem_enumFrom.mp haE
  obtain ⟨-, hstart, hall⟩ := keepRank1_spec.mp hak
  obtain ⟨rs, hrs⟩ := Option.isSome_iff_exists.mp hstart
  have hrs' : r'.Record_Start_Date = some rs := hrs
  refine ⟨k, hk, hget, rs, hrs', ?_, ?_⟩
  · intro j h' hnhs ss hss
    have hqE : (j, (slice_ndop_by_month df date)[j]) ∈
        enumFrom 0 (slice_ndop_by_month df date) :=
      mem_enumFrom.mpr ⟨j, h', by omega, rfl⟩
    have hb := hall _ hqE
    simp only [rowBeats, hnhs, beq_self_eq_true, Bool.true_and, hss, hrs'] at hb
    simp only [Bool.or_eq_false_iff, decide_eq_false_iff_not, Bool.and_eq_false_iff] at hb
    rw [Date.le_def]
    omega
  · intro j h' hji hnhs ss hss
    have hqE : (j, (slice_ndop_by_month df date)[j]) ∈
        enumFrom 0 (slice_ndop_by_month df date) :=
      mem_enumFrom.mpr ⟨j, h', by omega, rfl⟩
    have hb := hall _ hqE
    simp only [rowBeats, hnhs, beq_self_eq_true, Bool.true_and, hss, hrs'] at hb
    simp only [Bool.or_eq_false_iff, decide_eq_false_iff_not, Bool.and_eq_false_iff,
      decide_eq_false_iff_not] at hb
    rw [Date.lt_def]
    have hji' : i0 = 0 + k := hi0
    rcases hb with ⟨hb1, hb2 | hb2⟩ <;> omega

-- Living / deceased partition pipelines -----------------------------------

/-- `process_active_ndop_records`: slice to active records, keep living
patients, then deduplicate per patient. -/
def process_active_ndop_records (df : List NdopRow) (date : Date) : List NdopRow :=
  retrieve_most_recent_record (filter_living_patients (slice_ndop_by_month df date) date)

/-- `process_deceased_ndop_records`: slice to active records, keep deceased
patients, then deduplicate per patient. -/
def process_deceased_ndop_records (df : List NdopRow) (date : Date) : List NdopRow :=
  retrieve_most_recent_record (filter_deceased_patients (slice_ndop_by_month df date) date)

/-- Two record versions of patient "P" that disagree on `DATE_OF_DEATH`:
one carries a death date, the other none. -/
def rowDisagreeA : NdopRow :=
  { NHS_Number := some "P"
    AGE_BAND := some "40-49"
    GENDER := some "Male"
    DATE_OF_DEATH := some ⟨2022, 1, 1⟩
    GP_PRACTICE := some "P1"
    LSOA_CODE := some "L1"
    Record_Start_Date := some ⟨2020, 1, 1⟩
    Record_End_Date := none
    ACH_DATE := none }

def rowDisagreeB : NdopRow :=
  { rowDisagreeA with DATE_OF_DEATH := none, Record_Start_Date := some ⟨2021, 1, 1⟩ }

/-- **C3, counterexample.** When two active record versions of the same
patient disagree on `DATE_OF_DEATH`, the patient appears in both the Living
and the Deceased partition for the same snapshot date. -/
theorem mutual_exclusivity_counterexample :
    some "P" ∈ ((process_active_ndop_records [rowDisagreeA, rowDisagreeB]
      ⟨2022, 5, 1⟩).map (fun r => r.NHS_Number)) ∧
    some "P" ∈ ((process_deceased_ndop_records [rowDisagreeA, rowDisagreeB]
      ⟨2022, 5, 1⟩).map (fun r => r.NHS_Number)) := by
  decide

/-- **C3, amended.** If all record versions of a patient agree on
`DATE_OF_DEATH`, then no patient identifier appears in both the Living result
of `process_active_ndop_records` and the Deceased result of
`process_deceased_ndop_records` for the same snapshot date. -/
theorem mutual_exclusivity_of_partitions (df : List NdopRow) (date : Date)
    (hdod : ∀ r ∈ df, ∀ s ∈ df, r.NHS_Number = s.NHS_Number →
      r.DATE_OF_DEATH = s.DATE_OF_DEATH) (p : String) :
    ¬(some p ∈ (process_active_ndop_records df date).map (fun r => r.NHS_Number) ∧
      some p ∈ (process_deceased_ndop_records df date).map (fun r => r.NHS_Number)) := by
  rintro ⟨hl, hd⟩
  obtain ⟨r, hr, hrp⟩ := List.mem_map.mp hl
  obtain ⟨s, hs, hsp⟩ := List.mem_map.mp hd
  have hr' := mem_retrieve_most_recent_record hr
  have hs' := mem_retrieve_most_recent_record hs
  obtain ⟨hrslice, hrpred⟩ := List.mem_filter.mp hr'
  obtain ⟨hsslice, hspred⟩ := List.mem_filter.mp hs'
  obtain ⟨r0, ⟨hr0, -⟩, rfl⟩ := (by
    simpa only [slice_ndop_by_month, List.mem_map, List.mem_filter] using hrslice :
      ∃ a, (a ∈ df ∧ active_on a date = true) ∧ set_ach_date a date = r)
  obtain ⟨s0, ⟨hs0, -⟩, rfl⟩ := (by
    simpa only [slice_ndop_by_month, List.mem_map, List.mem_filter] using hsslice :
      ∃ a, (a ∈ df ∧ active_on a date = true) ∧ set_ach_date a date = s)
  have hsame : r0.DATE_OF_DEATH = s0.DATE_OF_DEATH :=
    hdod r0 hr0 s0 hs0 (by
      have h1 : (set_ach_date r0 date).NHS_Number = r0.NHS_Number := rfl
      have h2 : (set_ach_date s0 date).NHS_Number = s0.NHS_Number := rfl
      rw [← h1, ← h2, hrp, hsp])
  have hrdod : (set_ach_date r0 date).DATE_OF_DEATH = r0.DATE_OF_DEATH := rfl
  have hsdod : (set_ach_date s0 date).DATE_OF_DEATH = s0.DATE_OF_DEATH := rfl
  cases hdval : r0.DATE_OF_DEATH with
  | none =>
    rw [hsdod, ← hsame, hdval] at hspred
    simp at hspred
  | some dod =>
    rw [hrdod, hdval] at hrpred
    rw [hsdod, ← hsame, hdval] at hspred
    simp only [decide_eq_true_eq] at hrpred hspred
    rw [Date.lt_def] at hrpred
    rw [Date.le_def] at hspred
    omega

/-- Witness for C3 (amended): a single-version input satisfies the agreement
hypothesis, and patient "P" is then in at most one partition. -/
theorem mutual_exclusivity_of_partitions_witness :
    ¬(some "P" ∈ (process_active_ndop_records [rowDisagreeA] ⟨2022, 5, 1⟩).map
        (fun r => r.NHS_Number) ∧
      some "P" ∈ (process_deceased_ndop_records [rowDisagreeA] ⟨2022, 5, 1⟩).map
        (fun r => r.NHS_Number)) :=
  mutual_exclusivity_of_partitions [rowDisagreeA] ⟨2022, 5, 1⟩ (by decide) "P"

-- Demographic aggregation (age_gen_csv.py) --------------------------------

/-- `groupby(measures)["NHS_Number"].count()`: one entry per distinct key
observed in the frame (pandas drops rows whose group key is NaN), counting the
non-null `NHS_Number` values of the key's rows.  pandas additionally sorts the
group keys; the claims proved below are insensitive to entry order, so keys
are listed here in first-occurrence order. -/
def aggregateCounts {κ : Type} [DecidableEq κ] (f : NdopRow → Option κ)
    (df : List NdopRow) : List (κ × Nat) :=
  (df.filterMap f).dedup.map
    (fun k => (k, df.countP (fun r => decide (f r = some k) && r.NHS_Number.isSome)))

/-- Group key for measure `["ACH_DATE"]`. -/
def keyDate (r : NdopRow) : Option Date := r.ACH_DATE

/-- Group key for measure `["ACH_DATE", "GENDER"]`. -/
def keyDateGender (r : NdopRow) : Option (Date × String) :=
  match r.ACH_DATE, r.GENDER with
  | some d, some g => some (d, g)
  | _, _ => none

/-- Group key for measure `["ACH_DATE", "AGE_BAND"]`. -/
def keyDateAge (r : NdopRow) : Option (Date × String) :=
  match r.ACH_DATE, r.AGE_BAND with
  | some d, some a => some (d, a)
  | _, _ => none

/-- Group key for measure `["ACH_DATE", "AGE_BAND", "GENDER"]`. -/
def keyDateAgeGender (r : NdopRow) : Option (Date × String × String) :=
  match r.ACH_DATE, r.AGE_BAND, r.GENDER with
  | some d, some a, some g => some (d, a, g)
  | _, _, _ => none

/-- The four demographic measure groupings of `NDOP_MEASURES` (and the two of
`NDOP_DECEASED_MEASURES`). -/
inductive Measure where
  | dateOnly
  | dateGender
  | dateAge
  | dateAgeGender
deriving DecidableEq, Repr

def NDOP_MEASURES : List Measure :=
  [.dateAgeGender, .dateGender, .dateAge, .dateOnly]

def NDOP_DECEASED_MEASURES : List Measure := [.dateGender, .dateOnly]

/-- One row of an aggregated breakdown after `add_age_or_gender_columns`: the
missing demographic columns are filled with the fill value (`"All"` /
`"All deceased"`), so every aggregated frame has this uniform shape. -/
structure AggRow where
  ACH_DATE : Date
  AGE_BAND : String
  GENDER : String
  OPT_OUT : Nat
deriving DecidableEq, Repr

/-- `aggregate_ndop_by_measure`: group on the measure's columns, count
non-null `NHS_Number`s as `OPT_OUT`, and fill the absent demographic columns
with `fill_value` (`add_age_or_gender_columns`). -/
def aggregate_ndop_by_measure (df : List NdopRow) (m : Measure) (fill : String) :
    List AggRow :=
  match m with
  | .dateOnly =>
      (aggregateCounts keyDate df).map (fun e => ⟨e.1, fill, fill, e.2⟩)
  | .dateGender =>
      (aggregateCounts keyDateGender df).map (fun e => ⟨e.1.1, fill, e.1.2, e.2⟩)
  | .dateAge =>
      (aggregateCounts keyDateAge df).map (fun e => ⟨e.1.1, e.1.2, fill, e.2⟩)
  | .dateAgeGender =>
      (aggregateCounts keyDateAgeGender df).map
        (fun e => ⟨e.1.1, e.1.2.1, e.1.2.2, e.2⟩)

/-- `create_df_list_for_age_gen_csv`: one aggregated frame per measure
grouping. -/
def create_df_list_for_age_gen_csv (df : List NdopRow) (ms : List Measure)
    (fill : String) : List (List AggRow) :=
  ms.map (fun m => aggregate_ndop_by_measure df m fill)

/-- Total opt-out count that a breakdown reports for snapshot date `d`. -/
def opt_out_total (t : List AggRow) (d : Date) : Nat :=
  ((t.filter (fun e => decide (e.ACH_DATE = d))).map (fun e => e.OPT_OUT)).sum

theorem sum_map_add {κ : Type} (l : List κ) (f g : κ → Nat) :
    (l.map (fun k => f k + g k)).sum = (l.map f).sum + (l.map g).sum := by
  induction l with
  | nil => rfl
  | cons a t ih =>
    simp only [List.map_cons, List.sum_cons, ih]
    omega

theorem sum_map_ite_zero {κ : Type} [DecidableEq κ] (ks : List κ) (k0 : κ)
    (h : k0 ∉ ks) : (ks.map (fun k => if k0 = k then 1 else 0)).sum = 0 := by
  induction ks with
  | nil => rfl
  | cons a t ih =>
    simp only [List.mem_cons, not_or] at h
    simp [List.sum_cons, ih h.2, if_neg h.1]

theorem sum_map_ite_one {κ : Type} [DecidableEq κ] (ks : List κ) (k0 : κ)
    (hnd : ks.Nodup) (hmem : k0 ∈ ks) :
    (ks.map (fun k => if k0 = k then 1 else 0)).sum = 1 := by
  induction ks with
  | nil => cases hmem
  | cons a t ih =>
    rcases List.mem_cons.mp hmem with rfl | hmem'
    · simp [sum_map_ite_zero t k0 (List.nodup_cons.mp hnd).1]
    · have hne : k0 ≠ a := by
        rintro rfl
        exact (List.nodup_cons.mp hnd).1 hmem'
      simp [if_neg hne, ih (List.nodup_cons.mp hnd).2 hmem']

/-- Partition of a filtered count over a complete, duplicate-free key list:
summing the per-group counts recovers the count of all rows that carry a
group key. -/
theorem sum_countP_partition {κ : Type} [DecidableEq κ] (ks : List κ)
    (f : NdopRow → Option κ) (p : NdopRow → Bool) (df : List NdopRow)
    (hnd : ks.Nodup)
    (hcov : ∀ r ∈ df, p r = true → ∀ k, f r = some k → k ∈ ks) :
    (ks.map (fun k => df.countP (fun r => decide (f r = some k) && p r))).sum
      = df.countP (fun r => (f r).isSome && p r) := by
  induction df with
  | nil => simp
  | cons r t ih =>
    have hcov' : ∀ r' ∈ t, p r' = true → ∀ k, f r' = some k → k ∈ ks :=
      fun r' h => hcov r' (List.mem_cons_of_mem _ h)
    rw [List.countP_cons,
      List.map_congr_left (fun k _ => List.countP_cons
        (fun r' => decide (f r' = some k) && p r') r t),
      sum_map_add, ih hcov']
    congr 1
    by_cases hp : p r = true
    · cases hf : f r with
      | none => simp [hp]
      | some k0 =>
        have hk0 : k0 ∈ ks := hcov r (List.mem_cons_self r t) hp k0 hf
        have hmap : (ks.map
              (fun k => if (decide (some k0 = some k) && p r) = true then 1 else 0))
            = ks.map (fun k => if k0 = k then 1 else 0) :=
          List.map_congr_left (fun k _ => by simp [hp])
        rw [hmap, sum_map_ite_one ks k0 hnd hk0]
        simp [hp]
    · have hp' : p r = false := by revert hp; cases p r <;> simp
      simp [hp']

/-- Lift a key selector to `Option`: rows without a group key never match. -/
def selKey {κ : Type} (sel : κ → Bool) : Option κ → Bool
  | some k => sel k
  | none => false

/-- Filter-then-sum over an aggregated frame equals a single filtered count
over the input frame. -/
theorem agg_filter_sum_eq_countP {κ : Type} [DecidableEq κ]
    (f : NdopRow → Option κ) (sel : κ → Bool) (df : List NdopRow) :
    (((aggregateCounts f df).filter (fun e => sel e.1)).map (fun e => e.2)).sum
      = df.countP (fun r => selKey sel (f r) && r.NHS_Number.isSome) := by
  set f' : NdopRow → Option κ := fun r =>
    match f r with
    | some k' => if sel k' = true then some k' else none
    | none => none
    with hf'
  unfold aggregateCounts
  rw [List.filter_map, List.map_map]
  have hmapped :
      ((df.filterMap f).dedup.filter
          ((fun e => sel e.1) ∘
            fun k => (k, df.countP (fun r => decide (f r = some k) && r.NHS_Number.isSome)))).map
        ((fun e => e.2) ∘
          fun k => (k, df.countP (fun r => decide (f r = some k) && r.NHS_Number.isSome)))
      = ((df.filterMap f).dedup.filter (fun k => sel k)).map
          (fun k => df.countP (fun r => decide (f r = some k) && r.NHS_Number.isSome)) := rfl
  rw [hmapped]
  have hstep : ((df.filterMap f).dedup.filter (fun k => sel k)).map
        (fun k => df.countP (fun r => decide (f r = some k) && r.NHS_Number.isSome))
      = ((df.filterMap f).dedup.filter (fun k => sel k)).map
        (fun k => df.countP (fun r => decide (f' r = some k) && r.NHS_Number.isSome)) := by
    refine List.map_congr_left (fun k hk => ?_)
    have hsel : sel k = true := by simpa using (List.mem_filter.mp hk).2
    refine List.countP_congr (fun r _ => ?_)
    have hdec : decide (f r = some k) = decide (f' r = some k) := by
      cases hf : f r with
      | none => simp [hf', hf]
      | some k' =>
        by_cases hk' : sel k' = true
        · simp [hf', hf, hk']
        · have hne : k' ≠ k := fun h => hk' (h ▸ hsel)
          have hk'' : sel k' = false := by revert hk'; cases sel k' <;> simp
          simp [hf', hf, hk'', hne]
    rw [hdec]
  rw [hstep]
  rw [sum_countP_partition ((df.filterMap f).dedup.filter (fun k => sel k)) f'
    (fun r => r.NHS_Number.isSome) df ((df.filterMap f).nodup_dedup.filter _)
    (by
      intro r hr hp k hfk
      cases hf : f r with
      | none => rw [hf'] at hfk; simp only [hf] at hfk; cases hfk
      | some k' =>
        by_cases hk' : sel k' = true
        · rw [hf'] at hfk
          simp only [hf, hk', if_pos] at hfk
          obtain rfl : k' = k := by simpa using hfk
          refine List.mem_filter.mpr
            ⟨List.mem_dedup.mpr (List.mem_filterMap.mpr ⟨r, hr, hf⟩), by simpa using hk'⟩
        · have hk'' : sel k' = false := by revert hk'; cases sel k' <;> simp
          rw [hf'] at hfk
          simp only [hf, hk''] at hfk
          cases hfk)]
  refine List.countP_congr (fun r _ => ?_)
  have hsome : (f' r).isSome = selKey sel (f r) := by
    cases hf : f r with
    | none => simp [selKey, hf', hf]
    | some k' =>
      by_cases hk' : sel k' = true
      · simp [selKey, hf', hf, hk']
      · have hk'' : sel k' = false := by revert hk'; cases sel k' <;> simp
        simp [selKey, hf', hf, hk'']
  rw [hsome]

theorem opt_out_total_dateOnly (df : List NdopRow) (fill : String) (d : Date) :
    opt_out_total (aggregate_ndop_by_measure df .dateOnly fill) d
      = df.countP (fun r =>
          selKey (fun k => decide (k = d)) (keyDate r) && r.NHS_Number.isSome) := by
  unfold opt_out_total aggregate_ndop_by_measure
  rw [List.filter_map, List.map_map]
  have hc : ((aggregateCounts keyDate df).filter
        ((fun e => decide (e.ACH_DATE = d)) ∘ fun e => AggRow.mk e.1 fill fill e.2)).map
        ((fun e => e.OPT_OUT) ∘ fun e => AggRow.mk e.1 fill fill e.2)
      = ((aggregateCounts keyDate df).filter (fun e => decide (e.1 = d))).map
          (fun e => e.2) := rfl
  rw [hc, agg_filter_sum_eq_countP keyDate (fun k => decide (k = d)) df]

theorem opt_out_total_dateGender (df : List NdopRow) (fill : String) (d : Date) :
    opt_out_total (aggregate_ndop_by_measure df .dateGender fill) d
      = df.countP (fun r =>
          selKey (fun k => decide (k.1 = d)) (keyDateGender r) && r.NHS_Number.isSome) := by
  unfold opt_out_total aggregate_ndop_by_measure
  rw [List.filter_map, List.map_map]
  have hc : ((aggregateCounts keyDateGender df).filter
        ((fun e => decide (e.ACH_DATE = d)) ∘ fun e => AggRow.mk e.1.1 fill e.1.2 e.2)).map
        ((fun e => e.OPT_OUT) ∘ fun e => AggRow.mk e.1.1 fill e.1.2 e.2)
      = ((aggregateCounts keyDateGender df).filter (fun e => decide (e.1.1 = d))).map
          (fun e => e.2) := rfl
  rw [hc, agg_filter_sum_eq_countP keyDateGender (fun k => decide (k.1 = d)) df]

theorem opt_out_total_dateAge (df : List NdopRow) (fill : String) (d : Date) :
    opt_out_total (aggregate_ndop_by_measure df .dateAge fill) d
      = df.countP (fun r =>
          selKey (fun k => decide (k.1 = d)) (keyDateAge r) && r.NHS_Number.isSome) := by
  unfold opt_out_total aggregate_ndop_by_measure
  rw [List.filter_map, List.map_map]
  have hc : ((aggregateCounts keyDateAge df).filter
        ((fun e => decide (e.ACH_DATE = d)) ∘ fun e => AggRow.mk e.1.1 e.1.2 fill e.2)).map
        ((fun e => e.OPT_OUT) ∘ fun e => AggRow.mk e.1.1 e.1.2 fill e.2)
      = ((aggregateCounts keyDateAge df).filter (fun e => decide (e.1.1 = d))).map
          (fun e => e.2) := rfl
  rw [hc, agg_filter_sum_eq_countP keyDateAge (fun k => decide (k.1 = d)) df]

/-- A row whose `AGE_BAND` is null: pandas `groupby` silently drops it from
any grouping that includes `AGE_BAND`, but counts it in `{date}` and
`{date, gender}` groupings. -/
def rowNullAge : NdopRow :=
  { NHS_Number := some "1234567890"
    AGE_BAND := none
    GENDER := some "Male"
    DATE_OF_DEATH := none
    GP_PRACTICE := some "P1"
    LSOA_CODE := some "L1"
    Record_Start_Date := some ⟨2020, 1, 1⟩
    Record_End_Date := none
    ACH_DATE := some ⟨2022, 6, 1⟩ }

/-- **C1, counterexample.** On a table containing a row with null age band,
the `{date}` total is 1 while the `{date, age}` counts sum to 0, so the
cross-breakdown reconciliation fails as stated. -/
theorem cross_breakdown_reconciliation_counterexample :
    opt_out_total (aggregate_ndop_by_measure [rowNullAge] .dateOnly "All") ⟨2022, 6, 1⟩ = 1 ∧
    opt_out_total (aggregate_ndop_by_measure [rowNullAge] .dateAge "All") ⟨2022, 6, 1⟩ = 0 := by
  decide

/-- **C1, amended.** On tables with no null `AGE_BAND` and no null `GENDER`,
for every snapshot date the `{date}` total count equals the sum of the
`{date, gender}` counts and the sum of the `{date, age}` counts.  (Rows with a
null group key are dropped by pandas `groupby`, so a null age band or gender
breaks the reconciliation — see the counterexample.) -/
theorem cross_breakdown_reconciliation (df : List NdopRow) (fill : String)
    (h : ∀ r ∈ df, r.AGE_BAND.isSome = true ∧ r.GENDER.isSome = true) (d : Date) :
    opt_out_total (aggregate_ndop_by_measure df .dateGender fill) d
      = opt_out_total (aggregate_ndop_by_measure df .dateOnly fill) d ∧
    opt_out_total (aggregate_ndop_by_measure df .dateAge fill) d
      = opt_out_total (aggregate_ndop_by_measure df .dateOnly fill) d := by
  rw [opt_out_total_dateOnly, opt_out_total_dateGender, opt_out_total_dateAge]
  constructor
  · refine List.countP_congr (fun r hr => ?_)
    obtain ⟨-, hg⟩ := h r hr
    obtain ⟨g, hg'⟩ := Option.isSome_iff_exists.mp hg
    cases hd : r.ACH_DATE with
    | none => simp [selKey, keyDate, keyDateGender, hd]
    | some dd => simp [selKey, keyDate, keyDateGender, hd, hg']
  · refine List.countP_congr (fun r hr => ?_)
    obtain ⟨ha, -⟩ := h r hr
    obtain ⟨a, ha'⟩ := Option.isSome_iff_exists.mp ha
    cases hd : r.ACH_DATE with
    | none => simp [selKey, keyDate, keyDateAge, hd]
    | some dd => simp [selKey, keyDate, keyDateAge, hd, ha']

/-- A fully populated row (non-null age band and gender), used as witness
input. -/
def rowComplete : NdopRow :=
  { NHS_Number := some "1234567890"
    AGE_BAND := some "40-49"
    GENDER := some "Male"
    DATE_OF_DEATH := none
    GP_PRACTICE := some "P1"
    LSOA_CODE := some "L1"
    Record_Start_Date := some ⟨2020, 1, 1⟩
    Record_End_Date := none
    ACH_DATE := some ⟨2022, 6, 1⟩ }

/-- Witness for C1 (amended) at a concrete one-row table. -/
theorem cross_breakdown_reconciliation_witness :
    opt_out_total (aggregate_ndop_by_measure [rowComplete] .dateGender "All") ⟨2022, 6, 1⟩
      = opt_out_total (aggregate_ndop_by_measure [rowComplete] .dateOnly "All") ⟨2022, 6, 1⟩ ∧
    opt_out_total (aggregate_ndop_by_measure [rowComplete] .dateAge "All") ⟨2022, 6, 1⟩
      = opt_out_total (aggregate_ndop_by_measure [rowComplete] .dateOnly "All") ⟨2022, 6, 1⟩ :=
  cross_breakdown_reconciliation [rowComplete] "All" (by decide) ⟨2022, 6, 1⟩

-- Monthly concatenation and distinct-patient counting (C9) ----------------

/-- `concatenate_ndop_monthly_records`: apply the per-month record pipeline to
each reporting month and concatenate the slices.  The Python function draws
the month list from `report_dt.get_reporting_months_list()`; the list is a
parameter here. -/
def concatenate_ndop_monthly_records (f : List NdopRow → Date → List NdopRow)
    (df : List NdopRow) (dates : List Date) : List NdopRow :=
  (dates.map (fun d => f df d)).flatten

/-- The group of an aggregated row: the input rows carrying exactly the
dimension values that `aggregate_ndop_by_measure` grouped on. -/
def group_pred (m : Measure) (e : AggRow) (r : NdopRow) : Bool :=
  match m with
  | .dateOnly => decide (keyDate r = some e.ACH_DATE)
  | .dateGender => decide (keyDateGender r = some (e.ACH_DATE, e.GENDER))
  | .dateAge => decide (keyDateAge r = some (e.ACH_DATE, e.AGE_BAND))
  | .dateAgeGender =>
      decide (keyDateAgeGender r = some (e.ACH_DATE, e.AGE_BAND, e.GENDER))

/-- Number of distinct patient identifiers among the rows satisfying `q`. -/
def distinct_patients (df : List NdopRow) (q : NdopRow → Bool) : Nat :=
  ((df.filter q).filterMap (fun r => r.NHS_Number)).dedup.length

theorem ach_of_mem_slice {df : List NdopRow} {d : Date} {r : NdopRow}
    (h : r ∈ slice_ndop_by_month df d) : r.ACH_DATE = some d := by
  simp only [slice_ndop_by_month, List.mem_map, List.mem_filter] at h
  obtain ⟨r0, -, rfl⟩ := h
  rfl

theorem length_filterMap_nhs (l : List NdopRow) :
    (l.filterMap (fun r => r.NHS_Number)).length
      = l.countP (fun r => r.NHS_Number.isSome) := by
  induction l with
  | nil => rfl
  | cons r t ih =>
    cases hr : r.NHS_Number with
    | none => simp [List.filterMap_cons, hr, List.countP_cons, ih]
    | some s => simp [List.filterMap_cons, hr, List.countP_cons, ih]

theorem filterMap_nhs_nodup (l : List NdopRow)
    (h : (l.map (fun r => r.NHS_Number)).Nodup) :
    (l.filterMap (fun r => r.NHS_Number)).Nodup := by
  induction l with
  | nil => simp
  | cons r t ih =>
    rw [List.map_cons, List.nodup_cons] at h
    cases hr : r.NHS_Number with
    | none => simpa [List.filterMap_cons, hr] using ih h.2
    | some s =>
      simp only [List.filterMap_cons, hr]
      refine List.nodup_cons.mpr ⟨?_, ih h.2⟩
      intro hmem
      obtain ⟨r', hr', hr's⟩ := List.mem_filterMap.mp hmem
      apply h.1
      rw [hr]
      exact List.mem_map.mpr ⟨r', hr', hr's⟩

/-- Counting a single date-homogeneous group across the monthly concatenation:
when each monthly slice carries one date tag, the tags are pairwise distinct
and each slice has duplicate-free patient identifiers, the grouped row count
equals the number of distinct patient identifiers in the group. -/
theorem countP_flatten_group (L : List (List NdopRow)) (q : NdopRow → Bool)
    (d0 : Date) (hq : ∀ r, q r = true → r.ACH_DATE = some d0)
    (hnodup : ∀ l ∈ L, (l.filterMap (fun r => r.NHS_Number)).Nodup)
    (htags : L.Pairwise (fun l1 l2 => ∀ r1 ∈ l1, ∀ r2 ∈ l2,
      r1.ACH_DATE ≠ r2.ACH_DATE)) :
    L.flatten.countP (fun r => q r && r.NHS_Number.isSome)
      = ((L.flatten.filter q).filterMap (fun r => r.NHS_Number)).dedup.length := by
  induction L with
  | nil => simp
  | cons l Ls ih =>
    have hnodup' : ∀ l' ∈ Ls, (l'.filterMap (fun r => r.NHS_Number)).Nodup :=
      fun l' h => hnodup l' (List.mem_cons_of_mem _ h)
    obtain ⟨hhead, htail⟩ := List.pairwise_cons.mp htags
    rw [List.flatten_cons]
    by_cases hex : ∃ r ∈ l, q r = true
    · have htail0 : ∀ r' ∈ Ls.flatten, ¬ q r' = true := by
        intro r' hr' hq'
        obtain ⟨r, hrl, hrq⟩ := hex
        obtain ⟨l', hl', hr'l'⟩ := List.mem_flatten.mp hr'
        refine hhead l' hl' r hrl r' hr'l' ?_
        rw [hq r hrq, hq r' hq']
      have htail0' : ∀ r' ∈ Ls.flatten, ¬ (q r' && r'.NHS_Number.isSome) = true := by
        intro r' hr' hq'
        exact htail0 r' hr' (Bool.and_elim_left hq')
      rw [List.countP_append, List.filter_append,
        List.countP_eq_zero.mpr htail0', List.filter_eq_nil_iff.mpr htail0,
        List.append_nil, Nat.add_zero]
      have hnd1 : ((l.filter q).filterMap (fun r => r.NHS_Number)).Nodup :=
        (hnodup l (List.mem_cons_self l Ls)).sublist
          ((List.filter_sublist l).filterMap _)
      rw [List.dedup_eq_self.mpr hnd1, length_filterMap_nhs, List.countP_filter]
      refine List.countP_congr (fun r _ => ?_)
      rw [Bool.and_comm]
    · have hhead0 : ∀ r ∈ l, ¬ q r = true := fun r hrl hq' => hex ⟨r, hrl, hq'⟩
      have hhead0' : ∀ r ∈ l, ¬ (q r && r.NHS_Number.isSome) = true := by
        intro r hrl hq'
        exact hhead0 r hrl (Bool.and_elim_left hq')
      rw [List.countP_append, List.filter_append,
        List.countP_eq_zero.mpr hhead0', List.filter_eq_nil_iff.mpr hhead0,
        List.nil_append, Nat.zero_add]
      exact ih hnodup' htail

theorem keyDateGender_ach {r : NdopRow} {k : Date × String}
    (h : keyDateGender r = some k) : r.ACH_DATE = some k.1 := by
  unfold keyDateGender at h
  cases hd : r.ACH_DATE with
  | none => rw [hd] at h; cases h
  | some d =>
    cases hg : r.GENDER with
    | none => rw [hd, hg] at h; cases h
    | some g =>
      rw [hd, hg] at h
      obtain rfl : (d, g) = k := by simpa using h
      rfl

theorem keyDateAge_ach {r : NdopRow} {k : Date × String}
    (h : keyDateAge r = some k) : r.ACH_DATE = some k.1 := by
  unfold keyDateAge at h
  cases hd : r.ACH_DATE with
  | none => rw [hd] at h; cases h
  | some d =>
    cases ha : r.AGE_BAND with
    | none => rw [hd, ha] at h; cases h
    | some a =>
      rw [hd, ha] at h
      obtain rfl : (d, a) = k := by simpa using h
      rfl

theorem keyDateAgeGender_ach {r : NdopRow} {k : Date × String × String}
    (h : keyDateAgeGender r = some k) : r.ACH_DATE = some k.1 := by
  unfold keyDateAgeGender at h
  cases hd : r.ACH_DATE with
  | none => rw [hd] at h; cases h
  | some d =>
    cases ha : r.AGE_BAND with
    | none => rw [hd, ha] at h; cases h
    | some a =>
      cases hg : r.GENDER with
      | none => rw [hd, ha, hg] at h; cases h
      | some g =>
        rw [hd, ha, hg] at h
        obtain rfl : (d, a, g) = k := by simpa using h
        rfl

theorem process_records_ach (F : List NdopRow → Date → List NdopRow)
    (hF : F = process_active_ndop_records ∨ F = process_deceased_ndop_records)
    (df : List NdopRow) (d : Date) : ∀ r ∈ F df d, r.ACH_DATE = some d := by
  rcases hF with rfl | rfl
  all_goals
    intro r hr
    exact ach_of_mem_slice (List.mem_filter.mp (mem_retrieve_most_recent_record hr)).1

theorem process_records_nhs_nodup (F : List NdopRow → Date → List NdopRow)
    (hF : F = process_active_ndop_records ∨ F = process_deceased_ndop_records)
    (df : List NdopRow) (d : Date) :
    ((F df d).filterMap (fun r => r.NHS_Number)).Nodup := by
  rcases hF with rfl | rfl
  all_goals exact filterMap_nhs_nodup _ (retrieve_most_recent_record_nhs_nodup _)

/-- **C9.** On a concatenation of per-snapshot-date deduplicated slices (the
living or deceased resolver pipeline) over distinct snapshot dates, the
`OPT_OUT` count that `aggregate_ndop_by_measure` assigns to each group (every
measure includes the snapshot date) equals the number of distinct patient
identifiers in that group. -/
theorem aggregate_counts_distinct_patients
    (F : List NdopRow → Date → List NdopRow)
    (hF : F = process_active_ndop_records ∨ F = process_deceased_ndop_records)
    (base : List NdopRow) (dates : List Date) (hnd : dates.Nodup)
    (m : Measure) (fill : String) :
    ∀ e ∈ aggregate_ndop_by_measure
        (concatenate_ndop_monthly_records F base dates) m fill,
      e.OPT_OUT = distinct_patients
        (concatenate_ndop_monthly_records F base dates) (group_pred m e) := by
  have hnodupL : ∀ l ∈ dates.map (fun d => F base d),
      (l.filterMap (fun r => r.NHS_Number)).Nodup := by
    intro l hl
    obtain ⟨d, -, rfl⟩ := List.mem_map.mp hl
    exact process_records_nhs_nodup F hF base d
  have htagsL : (dates.map (fun d => F base d)).Pairwise
      (fun l1 l2 => ∀ r1 ∈ l1, ∀ r2 ∈ l2, r1.ACH_DATE ≠ r2.ACH_DATE) := by
    rw [List.pairwise_map]
    refine List.Pairwise.imp ?_ hnd
    intro d1 d2 hne r1 hr1 r2 hr2
    rw [process_records_ach F hF base d1 r1 hr1,
      process_records_ach F hF base d2 r2 hr2]
    simp [hne]
  intro e he
  cases m with
  | dateOnly =>
    simp only [aggregate_ndop_by_measure] at he
    obtain ⟨⟨k, c⟩, hkc, rfl⟩ := List.mem_map.mp he
    simp only [aggregateCounts] at hkc
    obtain ⟨k0, -, heq⟩ := List.mem_map.mp hkc
    obtain ⟨rfl, rfl⟩ : k0 = k ∧ _ = c := by
      simpa [Prod.mk.injEq] using heq
    exact countP_flatten_group (dates.map (fun d => F base d))
      (fun r => decide (keyDate r = some k0)) k0
      (fun r h => of_decide_eq_true h) hnodupL htagsL
  | dateGender =>
    simp only [aggregate_ndop_by_measure] at he
    obtain ⟨⟨k, c⟩, hkc, rfl⟩ := List.mem_map.mp he
    simp only [aggregateCounts] at hkc
    obtain ⟨k0, -, heq⟩ := List.mem_map.mp hkc
    obtain ⟨rfl, rfl⟩ : k0 = k ∧ _ = c := by
      simpa [Prod.mk.injEq] using heq
    exact countP_flatten_group (dates.map (fun d => F base d))
      (fun r => decide (keyDateGender r = some k0)) k0.1
      (fun r h => keyDateGender_ach (of_decide_eq_true h)) hnodupL htagsL
  | dateAge =>
    simp only [aggregate_ndop_by_measure] at he
    obtain ⟨⟨k, c⟩, hkc, rfl⟩ := List.mem_map.mp he
    simp only [aggregateCounts] at hkc
    obtain ⟨k0, -, heq⟩ := List.mem_map.mp hkc
    obtain ⟨rfl, rfl⟩ : k0 = k ∧ _ = c := by
      simpa [Prod.mk.injEq] using heq
    exact countP_flatten_group (dates.map (fun d => F base d))
      (fun r => decide (keyDateAge r = some k0)) k0.1
      (fun r h => keyDateAge_ach (of_decide_eq_true h)) hnodupL htagsL
  | dateAgeGender =>
    simp only [aggregate_ndop_by_measure] at he
    obtain ⟨⟨k, c⟩, hkc, rfl⟩ := List.mem_map.mp he
    simp only [aggregateCounts] at hkc
    obtain ⟨k0, -, heq⟩ := List.mem_map.mp hkc
    obtain ⟨rfl, rfl⟩ : k0 = k ∧ _ = c := by
      simpa [Prod.mk.injEq] using heq
    exact countP_flatten_group (dates.map (fun d => F base d))
      (fun r => decide (keyDateAgeGender r = some k0)) k0.1
      (fun r h => keyDateAgeGender_ach (of_decide_eq_true h)) hnodupL htagsL

/-- Witness for C2 at a concrete two-version input. -/
theorem resolution_cardinality_most_recent_witness :
    ((retrieve_most_recent_record
        (slice_ndop_by_month [rowDisagreeA, rowDisagreeB] ⟨2022, 5, 1⟩)).map
      (fun r => r.NHS_Number)).Nodup :=
  (resolution_cardinality_most_recent [rowDisagreeA, rowDisagreeB] ⟨2022, 5, 1⟩).1

/-- Witness for C5: the sample row is active on 2022-05-01 and is kept, tagged
with the snapshot date. -/
theorem slice_keeps_exactly_active_rows_witness :
    set_ach_date sampleRow ⟨2022, 5, 1⟩ ∈ slice_ndop_by_month [sampleRow] ⟨2022, 5, 1⟩ :=
  ((slice_keeps_exactly_active_rows [sampleRow] ⟨2022, 5, 1⟩).1 _).mpr
    ⟨sampleRow, by simp, by decide, rfl⟩

/-- Witness for C9 at a concrete one-patient, one-month pipeline run. -/
theorem aggregate_counts_distinct_patients_witness :
    (AggRow.mk ⟨2022, 5, 1⟩ "All" "All" 1).OPT_OUT
      = distinct_patients
          (concatenate_ndop_monthly_records process_active_ndop_records
            [rowDisagreeB] [⟨2022, 5, 1⟩])
          (group_pred .dateOnly (AggRow.mk ⟨2022, 5, 1⟩ "All" "All" 1)) :=
  aggregate_counts_distinct_patients process_active_ndop_records (Or.inl rfl)
    [rowDisagreeB] [⟨2022, 5, 1⟩] (by decide) .dateOnly "All"
    (AggRow.mk ⟨2022, 5, 1⟩ "All" "All" 1) (by decide)

-- Rate calculation and suppression (age_gen_csv.py) -----------------------

/-- Value held by the `OPT_OUT_RATE` float column: a finite value (modelled as
a rational, abstracting from IEEE-754 rounding), positive infinity, or NaN.
The claims below concern only which of these reaches the output. -/
inductive RVal where
  | val (q : ℚ)
  | inf
  | nan
deriving DecidableEq, Repr

/-- A row of the age/gender table after the left merge with list size:
`LIST_SIZE` is NaN (`none`) when the join found no denominator. -/
structure MergedRow where
  ACH_DATE : Date
  AGE_BAND : String
  GENDER : String
  OPT_OUT : Nat
  LIST_SIZE : Option Nat
deriving DecidableEq, Repr

/-- The same row once `OPT_OUT_RATE` has been computed. -/
structure RateRow where
  ACH_DATE : Date
  AGE_BAND : String
  GENDER : String
  OPT_OUT : Nat
  LIST_SIZE : Option Nat
  OPT_OUT_RATE : RVal
deriving DecidableEq, Repr

/-- IEEE float division `OPT_OUT / LIST_SIZE` as numpy performs it:
`x / NaN = NaN`, `x / 0 = inf` for `x > 0`, `0 / 0 = NaN`, and an ordinary
quotient otherwise. -/
def float_div (a : Nat) (b : Option Nat) : RVal :=
  match b with
  | none => .nan
  | some nb => if nb = 0 then (if a = 0 then .nan else .inf)
               else .val ((a : ℚ) / (nb : ℚ))

/-- Multiplication by the scalar 100: preserves `inf` and `nan`. -/
def float_mul100 : RVal → RVal
  | .val q => .val (100 * q)
  | .inf => .inf
  | .nan => .nan

/-- `calculate_opt_out_rate`: `df["OPT_OUT_RATE"] = 100 * (OPT_OUT / LIST_SIZE)`. -/
def calculate_opt_out_rate (df : List MergedRow) : List RateRow :=
  df.map (fun r =>
    ⟨r.ACH_DATE, r.AGE_BAND, r.GENDER, r.OPT_OUT, r.LIST_SIZE,
      float_mul100 (float_div r.OPT_OUT r.LIST_SIZE)⟩)

/-- `.replace(np.nan, 0)` on the rate column: replaces NaN (only) by 0;
infinities are untouched. -/
def replace_nan_with_zero : RVal → RVal
  | .nan => .val 0
  | v => v

/-- `fill_list_size_and_opt_out_nan_values`: NaN rates become 0,
NaN list sizes become 0 (then cast to int). -/
def fill_list_size_and_opt_out_nan_values (df : List RateRow) : List RateRow :=
  df.map (fun r =>
    { r with OPT_OUT_RATE := replace_nan_with_zero r.OPT_OUT_RATE,
             LIST_SIZE := some (r.LIST_SIZE.getD 0) })

/-- **C6, counterexample.** A group with one opt-out and an explicit zero
denominator: numpy division yields `inf`, and the NaN fill leaves it alone, so
an infinity reaches the output, contradicting the claim. -/
theorem rate_totality_counterexample :
    (fill_list_size_and_opt_out_nan_values (calculate_opt_out_rate
        [⟨⟨2022, 6, 1⟩, "0-9", "Female", 1, some 0⟩])).map
      (fun r => r.OPT_OUT_RATE) = [RVal.inf] := by
  decide

/-- **C6, amended.** After the rate and fill steps every output row satisfies:
rate = 100 x count / denominator when the denominator is positive; rate = 0
when the denominator is absent (failed join), or zero with a zero count; and
rate = inf (which does reach the output) when the denominator is zero and the
count positive.  NaN never reaches the output. -/
theorem rate_and_fill_behaviour (df : List MergedRow) :
    (fill_list_size_and_opt_out_nan_values (calculate_opt_out_rate df)).length
      = df.length ∧
    (∀ r ∈ fill_list_size_and_opt_out_nan_values (calculate_opt_out_rate df),
      r.OPT_OUT_RATE ≠ RVal.nan) ∧
    (∀ i, ∀ h : i < df.length,
      ∀ h' : i < (fill_list_size_and_opt_out_nan_values
        (calculate_opt_out_rate df)).length,
      ((fill_list_size_and_opt_out_nan_values (calculate_opt_out_rate df))[i].OPT_OUT
          = df[i].OPT_OUT ∧
        (fill_list_size_and_opt_out_nan_values (calculate_opt_out_rate df))[i].LIST_SIZE
          = some (df[i].LIST_SIZE.getD 0)) ∧
      (∀ b, df[i].LIST_SIZE = some b → 0 < b →
        (fill_list_size_and_opt_out_nan_values (calculate_opt_out_rate df))[i].OPT_OUT_RATE
          = RVal.val (100 * ((df[i].OPT_OUT : ℚ) / (b : ℚ)))) ∧
      (df[i].LIST_SIZE = none →
        (fill_list_size_and_opt_out_nan_values (calculate_opt_out_rate df))[i].OPT_OUT_RATE
          = RVal.val 0) ∧
      (df[i].LIST_SIZE = some 0 → df[i].OPT_OUT = 0 →
        (fill_list_size_and_opt_out_nan_values (calculate_opt_out_rate df))[i].OPT_OUT_RATE
          = RVal.val 0) ∧
      (df[i].LIST_SIZE = some 0 → 0 < df[i].OPT_OUT →
        (fill_list_size_and_opt_out_nan_values (calculate_opt_out_rate df))[i].OPT_OUT_RATE
          = RVal.inf)) := by
  refine ⟨?_, ?_, ?_⟩
  · simp [fill_list_size_and_opt_out_nan_values, calculate_opt_out_rate]
  · intro r hr
    simp only [fill_list_size_and_opt_out_nan_values, calculate_opt_out_rate,
      List.map_map, List.mem_map] at hr
    obtain ⟨m, -, rfl⟩ := hr
    cases hb : m.LIST_SIZE with
    | none => simp [float_div, float_mul100, replace_nan_with_zero, hb]
    | some nb =>
      rcases Nat.eq_zero_or_pos nb with rfl | hpos
      · rcases Nat.eq_zero_or_pos m.OPT_OUT with hz | hz <;>
          simp [float_div, float_mul100, replace_nan_with_zero, hb, hz,
            Nat.pos_iff_ne_zero.mp]
      · have : nb ≠ 0 := Nat.pos_iff_ne_zero.mp hpos
        simp [float_div, float_mul100, replace_nan_with_zero, hb, this]
  · intro i h h'
    have hget : (fill_list_size_and_opt_out_nan_values (calculate_opt_out_rate df))[i]
        = { ACH_DATE := df[i].ACH_DATE, AGE_BAND := df[i].AGE_BAND,
            GENDER := df[i].GENDER, OPT_OUT := df[i].OPT_OUT,
            LIST_SIZE := some (df[i].LIST_SIZE.getD 0),
            OPT_OUT_RATE := replace_nan_with_zero
              (float_mul100 (float_div df[i].OPT_OUT df[i].LIST_SIZE)) } := by
      simp [fill_list_size_and_opt_out_nan_values, calculate_opt_out_rate,
        List.map_map]
    refine ⟨⟨by rw [hget], by rw [hget]⟩, ?_, ?_, ?_, ?_⟩
    · intro b hb hpos
      rw [hget]
      have : b ≠ 0 := Nat.pos_iff_ne_zero.mp hpos
      simp [float_div, float_mul100, replace_nan_with_zero, hb, this]
    · intro hb
      rw [hget]
      simp [float_div, float_mul100, replace_nan_with_zero, hb]
    · intro hb hz
      rw [hget]
      simp [float_div, float_mul100, replace_nan_with_zero, hb, hz]
    · intro hb hpos
      rw [hget]
      have : df[i].OPT_OUT ≠ 0 := Nat.pos_iff_ne_zero.mp hpos
      simp [float_div, float_mul100, replace_nan_with_zero, hb, this]

/-- Witness for C6 (amended): one opt-out against a denominator of 4 rates at
`100 * (1/4)`, reached by applying the theorem at index 0. -/
theorem rate_and_fill_behaviour_witness :
    RVal.val (100 * ((1 : ℚ) / (4 : ℚ))) ∈
      (fill_list_size_and_opt_out_nan_values (calculate_opt_out_rate
        [⟨⟨2022, 6, 1⟩, "0-9", "Female", 1, some 4⟩])).map
        (fun r => r.OPT_OUT_RATE) := by
  have h := ((rate_and_fill_behaviour
    [⟨⟨2022, 6, 1⟩, "0-9", "Female", 1, some 4⟩]).2.2 0 (by decide)
    (by decide)).2.1 4 rfl (by decide)
  exact List.mem_map.mpr ⟨_, List.getElem_mem (by decide), h⟩

/-- `suppress_unknown_undisclosed_gender_rows`: drop the rows whose gender is
the undisclosed sentinel and whose age band is a real band (not `"All"` /
`"All deceased"`).  `df.drop(df[cond].index)` removes exactly the condition
rows here because the merge step has already reset the index to unique
labels. -/
def suppress_unknown_undisclosed_gender_rows (df : List RateRow) : List RateRow :=
  df.filter (fun r =>
    ! ((r.GENDER == "Unknown / Prefer not to say") &&
       (! (["All", "All deceased"] : List String).contains r.AGE_BAND)))

/-- **C7.** Suppression removes exactly the rows whose gender is
`"Unknown / Prefer not to say"` and whose age band is neither `"All"` nor
`"All deceased"`; every other row survives unchanged and in order, and in
particular unknown-gender rows with age band `"All"` are kept. -/
theorem suppression_exact (df : List RateRow) :
    (∀ r, r ∈ suppress_unknown_undisclosed_gender_rows df ↔
      r ∈ df ∧ ¬ (r.GENDER = "Unknown / Prefer not to say" ∧
        r.AGE_BAND ≠ "All" ∧ r.AGE_BAND ≠ "All deceased")) ∧
    List.Sublist (suppress_unknown_undisclosed_gender_rows df) df ∧
    (∀ r ∈ df, r.GENDER = "Unknown / Prefer not to say" → r.AGE_BAND = "All" →
      r ∈ suppress_unknown_undisclosed_gender_rows df) := by
  have hiff : ∀ r : RateRow,
      (! ((r.GENDER == "Unknown / Prefer not to say") &&
        (! (["All", "All deceased"] : List String).contains r.AGE_BAND))) = true ↔
      ¬ (r.GENDER = "Unknown / Prefer not to say" ∧
        r.AGE_BAND ≠ "All" ∧ r.AGE_BAND ≠ "All deceased") := by
    intro r
    simp [List.contains_eq_any_beq, and_assoc]
    tauto
  refine ⟨?_, List.filter_sublist df, ?_⟩
  · intro r
    rw [suppress_unknown_undisclosed_gender_rows, List.mem_filter, hiff]
  · intro r hr hg ha
    rw [suppress_unknown_undisclosed_gender_rows, List.mem_filter, hiff]
    refine ⟨hr, ?_⟩
    rintro ⟨-, hne, -⟩
    exact hne ha

/-- Witness for C7: an unknown-gender, age `"All"` row is kept. -/
theorem suppression_exact_witness :
    RateRow.mk ⟨2022, 6, 1⟩ "All" "Unknown / Prefer not to say" 3 (some 10)
        (RVal.val 30) ∈
      suppress_unknown_undisclosed_gender_rows
        [RateRow.mk ⟨2022, 6, 1⟩ "All" "Unknown / Prefer not to say" 3 (some 10)
          (RVal.val 30)] :=
  (suppression_exact _).2.2 _ (by simp) rfl rfl

-- Reporting-window expansion (config.py, reportDates) ---------------------

def isLeap (y : Nat) : Bool := y % 4 = 0 && (y % 100 ≠ 0 || y % 400 = 0)

def daysInMonth (y m : Nat) : Nat :=
  if m = 2 then (if isLeap y then 29 else 28)
  else if m = 4 ∨ m = 6 ∨ m = 9 ∨ m = 11 then 30
  else 31

/-- Zero-based month index of a date (months since year 0). -/
def monthIdx (a : Date) : Nat := a.y * 12 + (a.m - 1)

/-- The first day of the month with index `t`. -/
def firstOfMonthIdx (t : Nat) : Date := ⟨t / 12, t % 12 + 1, 1⟩

/-- `pd.DateOffset(months=n)` subtraction: shift the month index back by `n`
and clamp the day to the target month's length. -/
def subMonths (a : Date) (n : Nat) : Date :=
  let t := monthIdx a - n
  ⟨t / 12, t % 12 + 1, min a.d (daysInMonth (t / 12) (t % 12 + 1))⟩

/-- `reportDates.get_report_period_start_date`:
`pd.to_datetime(end_date) - pd.DateOffset(months=reporting_period)`. -/
def get_report_period_start_date (end_date : Date) (reporting_period : Nat) : Date :=
  subMonths end_date reporting_period

/-- `pd.date_range(start, end, freq="MS")`: the month-start dates lying within
`[start, end]`, ascending — the first one is `start` itself when `start` is a
month start, otherwise the start of the following month. -/
def date_range_MS (start finish : Date) : List Date :=
  let lo := if start.d = 1 then monthIdx start else monthIdx start + 1
  let hi := monthIdx finish
  if lo ≤ hi then (List.range (hi + 1 - lo)).map (fun i => firstOfMonthIdx (lo + i))
  else []

/-- `reportDates.get_reporting_months_list`. -/
def get_reporting_months_list (end_date : Date) (reporting_period : Nat) : List Date :=
  date_range_MS (get_report_period_start_date end_date reporting_period) end_date

theorem daysInMonth_pos (y m : Nat) : 1 ≤ daysInMonth y m := by
  unfold daysInMonth
  split
  · split <;> omega
  · split <;> omega

theorem firstOfMonthIdx_d (t : Nat) : (firstOfMonthIdx t).d = 1 := rfl

theorem firstOfMonthIdx_m (t : Nat) :
    1 ≤ (firstOfMonthIdx t).m ∧ (firstOfMonthIdx t).m ≤ 12 := by
  unfold firstOfMonthIdx
  dsimp only
  omega

theorem monthIdx_firstOfMonthIdx (t : Nat) : monthIdx (firstOfMonthIdx t) = t := by
  unfold monthIdx firstOfMonthIdx
  dsimp only
  omega

theorem firstOfMonthIdx_monthIdx {d : Date} (hd : d.d = 1) (hm1 : 1 ≤ d.m)
    (hm2 : d.m ≤ 12) : firstOfMonthIdx (monthIdx d) = d := by
  obtain ⟨y, m, dd⟩ := d
  simp only at hd hm1 hm2
  subst hd
  unfold firstOfMonthIdx monthIdx
  dsimp only
  simp only [Date.mk.injEq, and_true]
  omega

theorem firstOfMonthIdx_strictMono {t t' : Nat} (h : t < t') :
    firstOfMonthIdx t < firstOfMonthIdx t' := by
  rw [Date.lt_def]
  unfold firstOfMonthIdx Date.key
  dsimp only
  omega

theorem monthStart_le_iff {a b : Date} (ha : a.d = 1) (ham1 : 1 ≤ a.m)
    (ham2 : a.m ≤ 12) (hb : b.d = 1) (hbm1 : 1 ≤ b.m) (hbm2 : b.m ≤ 12) :
    a ≤ b ↔ monthIdx a ≤ monthIdx b := by
  obtain ⟨ya, ma, da⟩ := a
  obtain ⟨yb, mb, db⟩ := b
  simp only at ha ham1 ham2 hb hbm1 hbm2
  subst ha
  subst hb
  rw [Date.le_def]
  unfold Date.key monthIdx
  dsimp only
  omega

theorem subMonths_of_day_one {e : Date} (hd : e.d = 1) (n : Nat) :
    subMonths e n = firstOfMonthIdx (monthIdx e - n) := by
  unfold subMonths firstOfMonthIdx
  dsimp only
  rw [hd]
  simp only [Date.mk.injEq, true_and]
  have := daysInMonth_pos ((monthIdx e - n) / 12) ((monthIdx e - n) % 12 + 1)
  omega

/-- **C8, counterexample.** With an end date that is not a month boundary
(2022-06-15, one-month period), the computed start date 2022-05-15 is not in
the returned list `[2022-06-01]`, so the claim's "both the start and end
boundaries included" fails. -/
theorem reporting_window_counterexample :
    get_report_period_start_date ⟨2022, 6, 15⟩ 1 = ⟨2022, 5, 15⟩ ∧
    get_reporting_months_list ⟨2022, 6, 15⟩ 1 = [⟨2022, 6, 1⟩] ∧
    get_report_period_start_date ⟨2022, 6, 15⟩ 1 ∉
      get_reporting_months_list ⟨2022, 6, 15⟩ 1 := by
  decide

/-- **C8, amended.** When the end date is the first day of a (valid) month and
the period does not underflow the calendar, `get_reporting_months_list`
returns a strictly ascending list of exactly the month-start dates from the
computed start date to the end date, both included, one per month
(`reporting_period + 1` entries).  For an end date that is not a month
boundary, `freq="MS"` emits only month starts and neither boundary is
included — see the counterexample. -/
theorem reporting_window_expansion (e : Date) (n : Nat)
    (hd : e.d = 1) (hm1 : 1 ≤ e.m) (hm2 : e.m ≤ 12) (hn : n ≤ monthIdx e) :
    List.Pairwise (· < ·) (get_reporting_months_list e n) ∧
    get_report_period_start_date e n ∈ get_reporting_months_list e n ∧
    e ∈ get_reporting_months_list e n ∧
    (get_reporting_months_list e n).length = n + 1 ∧
    (∀ d : Date, d ∈ get_reporting_months_list e n ↔
      (d.d = 1 ∧ 1 ≤ d.m ∧ d.m ≤ 12 ∧
        get_report_period_start_date e n ≤ d ∧ d ≤ e)) := by
  have hstart : get_report_period_start_date e n = firstOfMonthIdx (monthIdx e - n) :=
    subMonths_of_day_one hd n
  have hlist : get_reporting_months_list e n
      = (List.range (n + 1)).map (fun i => firstOfMonthIdx (monthIdx e - n + i)) := by
    unfold get_reporting_months_list date_range_MS
    rw [hstart]
    simp only [firstOfMonthIdx_d, monthIdx_firstOfMonthIdx, if_pos]
    rw [if_pos (by omega : monthIdx e - n ≤ monthIdx e),
      show monthIdx e + 1 - (monthIdx e - n) = n + 1 from by omega]
  refine ⟨?_, ?_, ?_, ?_, ?_⟩
  · rw [hlist]
    refine List.pairwise_map.mpr (List.Pairwise.imp ?_ (List.pairwise_lt_range (n + 1)))
    intro i j hij
    exact firstOfMonthIdx_strictMono (by omega)
  · rw [hlist, hstart]
    exact List.mem_map.mpr ⟨0, List.mem_range.mpr (by omega), by simp⟩
  · rw [hlist]
    refine List.mem_map.mpr ⟨n, List.mem_range.mpr (by omega), ?_⟩
    have : monthIdx e - n + n = monthIdx e := by omega
    rw [this]
    exact firstOfMonthIdx_monthIdx hd hm1 hm2
  · rw [hlist]
    simp
  · intro d
    rw [hlist, hstart]
    constructor
    · intro hmem
      obtain ⟨i, hi, rfl⟩ := List.mem_map.mp hmem
      rw [List.mem_range] at hi
      refine ⟨firstOfMonthIdx_d _, (firstOfMonthIdx_m _).1, (firstOfMonthIdx_m _).2,
        ?_, ?_⟩
      · rw [monthStart_le_iff (firstOfMonthIdx_d _) (firstOfMonthIdx_m _).1
          (firstOfMonthIdx_m _).2 (firstOfMonthIdx_d _) (firstOfMonthIdx_m _).1
          (firstOfMonthIdx_m _).2, monthIdx_firstOfMonthIdx, monthIdx_firstOfMonthIdx]
        omega
      · rw [monthStart_le_iff (firstOfMonthIdx_d _) (firstOfMonthIdx_m _).1
          (firstOfMonthIdx_m _).2 hd hm1 hm2, monthIdx_firstOfMonthIdx]
        omega
    · rintro ⟨hdd, hdm1, hdm2, hge, hle⟩
      rw [monthStart_le_iff (firstOfMonthIdx_d _) (firstOfMonthIdx_m _).1
        (firstOfMonthIdx_m _).2 hdd hdm1 hdm2, monthIdx_firstOfMonthIdx] at hge
      rw [monthStart_le_iff hdd hdm1 hdm2 hd hm1 hm2] at hle
      refine List.mem_map.mpr ⟨monthIdx d - (monthIdx e - n),
        List.mem_range.mpr (by omega), ?_⟩
      have : monthIdx e - n + (monthIdx d - (monthIdx e - n)) = monthIdx d := by omega
      rw [this]
      exact firstOfMonthIdx_monthIdx hdd hdm1 hdm2

/-- Witness for C8 (amended) at the publication's convention: end date
2022-06-01, 11-month period. -/
theorem reporting_window_expansion_witness :
    get_report_period_start_date ⟨2022, 6, 1⟩ 11 ∈
        get_reporting_months_list ⟨2022, 6, 1⟩ 11 ∧
    (⟨2022, 6, 1⟩ : Date) ∈ get_reporting_months_list ⟨2022, 6, 1⟩ 11 ∧
    (get_reporting_months_list ⟨2022, 6, 1⟩ 11).length = 12 := by
  have h := reporting_window_expansion ⟨2022, 6, 1⟩ 11 rfl (by decide) (by decide)
    (by decide)
  exact ⟨h.2.1, h.2.2.1, h.2.2.2.1⟩

-- NHS-number cleaning (ndop_clean.py) -------------------------------------

/-- `params.INVALID_NHS_NUMBERS`: the nine repeated-digit placeholder
numbers. -/
def INVALID_NHS_NUMBERS : List String :=
  ["1111111111", "2222222222", "3333333333", "4444444444", "5555555555",
   "6666666666", "7777777777", "8888888888", "9999999999"]

/-- `df[~df["NHS_Number"].isin(INVALID_NHS_NUMBERS)]`.  `isin` is `False` for
NaN, so null numbers survive this filter. -/
def remove_nhs_number_which_are_invalid (df : List NdopRow) : List NdopRow :=
  df.filter (fun r =>
    match r.NHS_Number with
    | none => true
    | some s => ! INVALID_NHS_NUMBERS.contains s)

/-- `df[df["NHS_Number"].str[0] != "9"]`.  `.str[0]` of NaN or of an empty
string is NaN, and `NaN != "9"` is `True`, so such rows survive this
filter. -/
def remove_nhs_number_starting_with_9 (df : List NdopRow) : List NdopRow :=
  df.filter (fun r =>
    match r.NHS_Number with
    | none => true
    | some s =>
      match s.data with
      | [] => true
      | c :: _ => ! (c == '9'))

/-- `df[df["NHS_Number"].notna()]`. -/
def remove_nhs_number_which_are_null (df : List NdopRow) : List NdopRow :=
  df.filter (fun r => r.NHS_Number.isSome)

/-- `fill_empty_categorical_column_values`: null `GP_PRACTICE` / `LSOA_CODE`
become `"Unallocated"`. -/
def fill_empty_categorical_column_values (df : List NdopRow) : List NdopRow :=
  df.map (fun r =>
    { r with
      GP_PRACTICE := some (r.GP_PRACTICE.getD "Unallocated"),
      LSOA_CODE := some (r.LSOA_CODE.getD "Unallocated") })

/-- `fill_empty_gender_column_values`: null `GENDER` becomes the undisclosed
sentinel. -/
def fill_empty_gender_column_values (df : List NdopRow) : List NdopRow :=
  df.map (fun r =>
    { r with GENDER := some (r.GENDER.getD "Unknown / Prefer not to say") })

/-- `clean_nhs_numbers`: the five-step pipe of `ndop_clean.py`. -/
def clean_nhs_numbers (df : List NdopRow) : List NdopRow :=
  fill_empty_gender_column_values
    (fill_empty_categorical_column_values
      (remove_nhs_number_which_are_null
        (remove_nhs_number_starting_with_9
          (remove_nhs_number_which_are_invalid df))))

/-- **C10.** `clean_nhs_numbers` removes exactly the records whose
`NHS_Number` is null, begins with the character `'9'`, or is one of the nine
repeated-digit invalid numbers; every other record is kept (its identifier
unchanged, with only the categorical null-fills applied to other columns). -/
theorem clean_nhs_numbers_exact (df : List NdopRow) :
    ∀ r' : NdopRow, r' ∈ clean_nhs_numbers df ↔
      ∃ r ∈ df, (∃ s, r.NHS_Number = some s ∧ s.data.head? ≠ some '9' ∧
          s ∉ INVALID_NHS_NUMBERS) ∧
        r' = { r with
          GP_PRACTICE := some (r.GP_PRACTICE.getD "Unallocated"),
          LSOA_CODE := some (r.LSOA_CODE.getD "Unallocated"),
          GENDER := some (r.GENDER.getD "Unknown / Prefer not to say") } := by
  intro r'
  simp only [clean_nhs_numbers, fill_empty_gender_column_values,
    fill_empty_categorical_column_values, remove_nhs_number_which_are_null,
    remove_nhs_number_starting_with_9, remove_nhs_number_which_are_invalid,
    List.mem_map, List.mem_filter]
  constructor
  · rintro ⟨r1, ⟨r0, ⟨⟨⟨hmem, hp1⟩, hp2⟩, hp3⟩, rfl⟩, rfl⟩
    obtain ⟨s, hs⟩ := Option.isSome_iff_exists.mp hp3
    refine ⟨r0, hmem, ⟨s, hs, ?_, ?_⟩, rfl⟩
    · rw [hs] at hp2
      dsimp only at hp2
      cases hsd : s.data with
      | nil => simp [hsd]
      | cons c cs =>
        rw [hsd] at hp2
        dsimp only at hp2
        simp only [Bool.not_eq_true', beq_eq_false_iff_ne] at hp2
        simp [hsd, hp2]
    · rw [hs] at hp1
      dsimp only at hp1
      simpa using hp1
  · rintro ⟨r, hmem, ⟨s, hs, hhead, hinv⟩, rfl⟩
    refine ⟨_, ⟨r, ⟨⟨⟨hmem, ?_⟩, ?_⟩, ?_⟩, rfl⟩, rfl⟩
    · rw [hs]
      dsimp only
      simpa using hinv
    · rw [hs]
      dsimp only
      cases hsd : s.data with
      | nil => rfl
      | cons c cs =>
        dsimp only
        rw [hsd] at hhead
        simp only [List.head?_cons] at hhead
        simp only [Bool.not_eq_true', beq_eq_false_iff_ne]
        intro hc
        exact hhead (by rw [hc])
    · rw [hs]
      rfl

/-- Witness for C10: a record with a valid identifier and fully populated
columns passes through unchanged. -/
theorem clean_nhs_numbers_exact_witness :
    sampleRow ∈ clean_nhs_numbers [sampleRow] :=
  (clean_nhs_numbers_exact [sampleRow] sampleRow).mpr
    ⟨sampleRow, by simp, ⟨"1234567890", rfl, by decide, by decide⟩, rfl⟩

end NDOP
